import Mathlib

/-!
Verification development for the saleor-algolia-plugin repository.

The Python sources `algolia/utils.py` and `algolia/plugin.py` are shallowly
embedded below.  Conventions of the embedding:

* Python `Decimal` amounts are rationals (`Rat`).
* Nullable JSON/GraphQL fields are `Option`; a JSON object such as
  `{"url": ...}` that may itself be `null` becomes an `Option` of its payload.
* Python exceptions raised by the code under study (`TypeError` when iterating
  `None`, `IndexError` on `[0]` of an empty list, attribute access on `None`,
  `Vendor.DoesNotExist`, `GraphQLError` from global-id decoding) are modelled
  with `Except BuildErr`.
* Django querysets reachable from a product are carried as list-valued fields
  of `ProductRec`; the GraphQL query that `get_product_data` executes against
  the product schema is modelled as an input value `QueryResult` (the query
  only re-reads the same entity graph, and its `errors` list is modelled as a
  boolean flag `errors`).
* Graphene global IDs are modelled in their decoded form `"Type:id"`; the real
  code base64-decodes the very same shape.
* The plugin hooks are modelled as functions from their inputs to the list of
  remote index operations they issue; the document builder they invoke is an
  explicit function argument `build` (its composition with the entity graph is
  `get_product_data` above), and the per-product metadata store mutated by the
  order hook is threaded explicitly.
-/

/-- A JSON metadata value stored on a product (string or integer). -/
inductive MetaVal
  | str : String → MetaVal
  | int : Int → MetaVal
deriving DecidableEq, Repr

/-- Python truthiness of a metadata value. -/
def MetaVal.truthy : MetaVal → Bool
  | MetaVal.str s => s ≠ ""
  | MetaVal.int n => n ≠ 0

/-- Numeric reading of a metadata value, used where the Python code does
integer arithmetic on it.  (On a string Python would raise `TypeError`; no
claim exercises that case, strings map to 0 here.) -/
def MetaVal.asInt : MetaVal → Int
  | MetaVal.int n => n
  | MetaVal.str _ => 0

/-- `metadata.get(key)` on the product's metadata dictionary. -/
def getMeta (m : List (String × MetaVal)) (key : String) : Option MetaVal :=
  (m.find? (fun e => e.1 == key)).map Prod.snd

/-- `get_value_from_metadata(key, default)`. -/
def getMetaD (m : List (String × MetaVal)) (key : String) (d : MetaVal) : MetaVal :=
  (getMeta m key).getD d

/-- `store_value_in_metadata(items={key: v})`: replace an existing key in
place, otherwise append. -/
def setMeta (m : List (String × MetaVal)) (key : String) (v : MetaVal) :
    List (String × MetaVal) :=
  if m.any (fun e => e.1 == key) then
    m.map (fun e => if e.1 == key then (key, v) else e)
  else m ++ [(key, v)]

/-- Python `str.lower()` in a kernel-computable form (`String.toLower`
character by character). -/
def lowerStr (s : String) : String := String.mk (s.data.map Char.toLower)

/-- Split a character list on a separator character (all occurrences),
mirroring Python `str.split(sep)` / `String.splitOn`. -/
def splitParts (sep : Char) : List Char → List (List Char)
  | [] => [[]]
  | c :: rest =>
    let ps := splitParts sep rest
    if c = sep then [] :: ps
    else
      match ps with
      | p :: tail => (c :: p) :: tail
      | [] => [[c]]

/-- Python `int(s)` on a decimal string, in a kernel-computable form of
`String.toNat?`. -/
def strToNat? (s : String) : Option Nat :=
  if s.data ≠ [] ∧ s.data.all Char.isDigit then
    some (s.data.foldl (fun n c => n * 10 + (c.toNat - 48)) 0)
  else none

/-- Exceptions the embedded code can raise. -/
inductive BuildErr
  | typeError       -- iterating over `None` (missing category chain)
  | indexError      -- `[0]` on an empty list (description blocks, thumbnail)
  | noneAccess      -- attribute access on `None` (variant price)
  | vendorNotFound  -- `Vendor.objects.get` raising `DoesNotExist`
  | graphQLError    -- `from_global_id_or_error` failure
deriving DecidableEq, Repr

/-- A vendor row (`vendor.models.Vendor`). -/
structure Vendor where
  pk : Nat
  brand_name : String
deriving DecidableEq, Repr

/-- One category in an ancestor chain: its `str()` form and its translations
keyed by language code (value is the `str()` of the translation row). -/
structure CategoryNode where
  name : String
  translations : List (String × String)
deriving DecidableEq, Repr

/-- `product.category` together with `get_ancestors(include_self=True)`,
root-first and self-inclusive. -/
structure CategoryRec where
  ancestorsWithSelf : List CategoryNode
deriving DecidableEq, Repr

/-- A collection with its slug and its per-language translated names. -/
structure Collection where
  slug : String
  translations : List (String × String)
deriving DecidableEq, Repr

/-- One block of an editor-js description document: the `data` key (absent or
an object whose `text` key is absent or a string). -/
structure DescBlock where
  data : Option (Option String)
deriving DecidableEq, Repr

/-- An editor-js description document; `blocks = none` models an object
without a `"blocks"` key. -/
structure DescriptionDoc where
  blocks : Option (List DescBlock)
deriving DecidableEq, Repr

/-- A product translation row. -/
structure ProductTranslationRec where
  language_code : String
  name : String
  description : Option DescriptionDoc
deriving DecidableEq, Repr

/-- The ORM side of a product as read by `get_product_data`:
metadata, category chain, vendor association set, variant SKUs,
collections, celebrities and translation rows. -/
structure ProductRec where
  pk : Nat
  name : String
  description : Option DescriptionDoc
  category : Option CategoryRec
  variant_skus : List String
  collections : List Collection
  vendor_set : List Vendor
  celebrity_set : List String
  metadata : List (String × MetaVal)
  translations : List ProductTranslationRec
deriving DecidableEq, Repr

/-- `priceRange.start.gross` of a channel listing's pricing. -/
structure GrossNode where
  amount : Rat
  currency : String
deriving DecidableEq, Repr

/-- The `discount { currency }` object of a channel listing's pricing. -/
structure DiscountNode where
  currency : Option String
deriving DecidableEq, Repr

/-- The `start { gross }` object of a price range; `gross` is non-null when
`start` is present (the query always selects it). -/
structure StartNode where
  gross : GrossNode
deriving DecidableEq, Repr

/-- The `priceRange { start }` object; `start` may be null. -/
structure PriceRangeNode where
  start : Option StartNode
deriving DecidableEq, Repr

/-- The `pricing` object of a channel listing; `priceRange` may itself be
null, and independently its `start` may be null — the two null states are
kept apart because the source raises on them rather than defaulting. -/
structure PricingNode where
  priceRange : Option PriceRangeNode
  discount : Option DiscountNode
deriving DecidableEq, Repr

/-- `pricing.pop("priceRange", {}).pop("start", {}).pop("gross", {})`: the
keys are always present in the fetched dicts, so the dict defaults never
apply; a null `priceRange` or a null `start` makes the next `.pop` run on
`None` and raise `AttributeError`; otherwise the gross object is returned. -/
def gross_of_pricing (pricing : PricingNode) : Except BuildErr GrossNode :=
  match pricing.priceRange with
  | none => Except.error BuildErr.noneAccess
  | some pr =>
    match pr.start with
    | none => Except.error BuildErr.noneAccess
    | some st => Except.ok st.gross

/-- One `channelListings` element of the GraphQL product node. -/
structure ChannelListingNode where
  pricing : Option PricingNode
  discountedPrice : Option Rat
  channel : String
  isPublished : Bool
  publicationDate : Option String
  isAvailableForPurchase : Bool
deriving DecidableEq, Repr

/-- One `channelListings` element of a variant node (`price { amount }`). -/
structure VariantChannelListingNode where
  price : Option Rat
deriving DecidableEq, Repr

/-- Attribute definition as fetched: raw name plus the requested locale's
translated name when present. -/
structure AttrName where
  name : String
  translation : Option String
deriving DecidableEq, Repr

/-- Attribute value as fetched: raw name plus the requested locale's
translated name when present. -/
structure AttrValue where
  name : String
  translation : Option String
deriving DecidableEq, Repr

/-- One attribute assignment (`{attribute {...}, values [...]}`); the source
field `attribute` is a reserved word in Lean and is called `attr` here. -/
structure AttributeEntry where
  attr : AttrName
  values : List AttrValue
deriving DecidableEq, Repr

/-- One `variants` element of the GraphQL product node. -/
structure VariantNode where
  channelListings : List VariantChannelListingNode
  attributes : List AttributeEntry
deriving DecidableEq, Repr

/-- The GraphQL product node returned by `GET_PRODUCT_QUERY`. -/
structure ProductNode where
  name : String
  slug : String
  description : Option DescriptionDoc
  media : List (Option String)
  thumbnail : Option (Option String)
  channelListings : List ChannelListingNode
  variants : List VariantNode
  attributes : List AttributeEntry
deriving DecidableEq, Repr

/-- The result of executing `GET_PRODUCT_QUERY`: the node plus whether the
execution reported errors (`product_data.errors`). -/
structure QueryResult where
  errors : Bool
  node : ProductNode
deriving DecidableEq, Repr

/-- A per-channel pricing block emitted for an eligible channel listing.
`currency` comes from the extracted gross object (which is always a real
gross dict when no exception was raised, so the Python `.pop("currency", 0)`
default never fires). -/
structure ChannelBlock where
  name : String
  publication_date : Option String
  price : Rat
  currency : String
  discounted_price : Rat
deriving DecidableEq, Repr

/-- The flat per-locale index document assembled by `get_product_data`.
`description = none` models the Python `{}` placeholder text. -/
structure Document where
  skus : List String
  objectID : String
  vendors : List String
  channels : List ChannelBlock
  name : String
  attributes : Option (List (List (String × List String)))
  celebrities : List String
  description : Option String
  gender : Option MetaVal
  images : List String
  popularity : MetaVal
  thumbnail : String
  collections : List String
  categories : List (String × String)
  tagsCelebrities : List String
  tagsGender : Option MetaVal
deriving DecidableEq, Repr

/-- `get_categories_list_from_product`: `None` when the product has no
category; otherwise the ancestor names (base locale `"en"`) or the first
matching translation of each ancestor, ancestors without one dropped. -/
def get_categories_list_from_product (product : ProductRec) (language_code : String) :
    Option (List String) :=
  match product.category with
  | none => none
  | some cat =>
    if language_code = "en" then
      some (cat.ancestorsWithSelf.map CategoryNode.name)
    else
      some (cat.ancestorsWithSelf.filterMap fun c =>
        (c.translations.find? (fun t => t.1 == language_code)).map Prod.snd)

/-- The loop body of `get_hierarchical_categories` on an already materialised
label list: key `lvl<i>`, value the `" > "`-join of labels `0..i` (the Python
code special-cases index 0 to the bare label). -/
def get_hierarchical_categories (objects : List String) : List (String × String) :=
  (List.range objects.length).map fun index =>
    ("lvl" ++ toString index,
      if index = 0 then objects.getD 0 ""
      else String.intercalate " > " (objects.take (index + 1)))

/-- The dispatching entry of `get_hierarchical_categories`: a product argument
is first turned into its category list; a missing list (`None`) makes the
subsequent iteration raise `TypeError`. -/
inductive HierInput
  | product (p : ProductRec)
  | labels (ls : List String)

/-- `get_hierarchical_categories` as called with either a label list or a
product (the `hasattr(objects, "category")` branch). -/
def get_hierarchical_categories_from (input : HierInput) (language_code : String) :
    Except BuildErr (List (String × String)) :=
  match input with
  | HierInput.labels ls => Except.ok (get_hierarchical_categories ls)
  | HierInput.product p =>
    match get_categories_list_from_product p language_code with
    | some ls => Except.ok (get_hierarchical_categories ls)
    | none => Except.error BuildErr.typeError

/-- `map_product_description`: extract `blocks[0].data.text`; a falsy
description gives the `{}` placeholder (`none` here); a present but empty
`blocks` list raises `IndexError`. -/
def map_product_description : Option DescriptionDoc → Except BuildErr (Option String)
  | none => Except.ok none
  | some d =>
    match d.blocks.getD [{ data := none }] with
    | [] => Except.error BuildErr.indexError
    | b :: _ =>
      match b.data with
      | none => Except.ok none
      | some td => Except.ok td

/-- `map_product_attributes`: product attributes extended with every
variant's attributes; `None` when that union is empty; at locale `"EN"` the
raw names, otherwise per attribute either a one-key map under the translated
name (values restricted to translated ones) or an empty map when the
attribute itself has no translation. -/
def map_product_attributes (productAttrs : List AttributeEntry)
    (variantAttrs : List (List AttributeEntry)) (language_code : String) :
    Option (List (List (String × List String))) :=
  let attributes := productAttrs ++ variantAttrs.flatten
  if attributes.isEmpty then none
  else
    let attrs := attributes.map fun a =>
      [(a.attr.name, a.values.map AttrValue.name)]
    let attrsAr := attributes.map fun a =>
      match a.attr.translation with
      | some tname => [(tname, a.values.filterMap AttrValue.translation)]
      | none => []
    some (if language_code = "EN" then attrs else attrsAr)

/-- `map_product_media_or_thumbnail`: keep truthy `url` values. -/
def map_product_media_or_thumbnail (media : List (Option String)) : List String :=
  media.filterMap fun u =>
    match u with
    | some s => if s ≠ "" then some s else none
    | none => none

/-- `map_product_collections`: slugs at locale `"EN"`, otherwise every
matching translation name of every collection. -/
def map_product_collections (collections : List Collection) (language_code : String) :
    List String :=
  if collections.isEmpty then []
  else if language_code = "EN" then collections.map Collection.slug
  else
    (collections.map fun c =>
      (c.translations.filter (fun t => t.1 == lowerStr language_code)).map Prod.snd).flatten

/-- The `price` local of `get_product_data`: the first variant's first channel
listing price; `some 0` when there are no variants or listings, `none` when
that listing's price is null (later use then raises). -/
def price_local (variants : List VariantNode) : Option Rat :=
  match variants with
  | [] => some 0
  | v :: _ =>
    match v.channelListings with
    | [] => some 0
    | l :: _ => l.price

/-- One iteration of the channel loop of `get_product_data`: channels with a
falsy `pricing` are skipped outright; for truthy pricing the gross chain is
extracted first — raising `AttributeError` on a null `priceRange` or `start`
before the publication checks even run; an eligible channel (published and
available for purchase) then yields a block whose `discounted_price` is the
channel's discounted price exactly when both a discounted price and a
discount are present, and the variant base price otherwise. -/
def build_channel_block (price : Option Rat) (ch : ChannelListingNode) :
    Except BuildErr (Option ChannelBlock) :=
  match ch.pricing with
  | none => Except.ok none
  | some pricing =>
    match gross_of_pricing pricing with
    | Except.error e => Except.error e
    | Except.ok gross_price =>
      if ch.isAvailableForPurchase && ch.isPublished then
        match price with
        | none => Except.error BuildErr.noneAccess
        | some amt =>
          Except.ok (some
            { name := ch.channel
              publication_date := ch.publicationDate
              price := amt
              currency := gross_price.currency
              discounted_price :=
                if ch.discountedPrice.isSome && pricing.discount.isSome then
                  ch.discountedPrice.getD 0
                else amt })
      else Except.ok none

/-- The whole channel loop of `get_product_data`, in listing order. -/
def build_channels (price : Option Rat) : List ChannelListingNode →
    Except BuildErr (List ChannelBlock)
  | [] => Except.ok []
  | ch :: rest =>
    match build_channel_block price ch with
    | Except.error e => Except.error e
    | Except.ok b =>
      match build_channels price rest with
      | Except.error e => Except.error e
      | Except.ok bs =>
        match b with
        | some blk => Except.ok (blk :: bs)
        | none => Except.ok bs

/-- `from_global_id_or_error` on the decoded `"Type:id"` form. -/
def decode_global_id (globalId : String) : Option (String × String) :=
  match splitParts ':' globalId.data with
  | [ty, ident] => some (String.mk ty, String.mk ident)
  | _ => none

/-- The final vendor loop: append each associated vendor's brand name not
already collected. -/
def finish_vendors (vendors : List String) (vset : List Vendor) : List String :=
  vset.foldl (fun acc v => if v.brand_name ∈ acc then acc else acc ++ [v.brand_name]) vendors

/-- The vendor block of `get_product_data`: a truthy metadata `"vendor"`
global id is decoded and resolved, the resolved vendor is added to the
product's association set and its brand name collected; otherwise the
association set is cleared.  Either way the (new) association set is then
folded into the brand-name list.  Returns the collected brand names and the
association set after the mutations. -/
def resolve_vendors (vendorDb : List Vendor) (metadata : List (String × MetaVal))
    (vendor_set : List Vendor) : Except BuildErr (List String × List Vendor) :=
  match getMeta metadata "vendor" with
  | some v =>
    if v.truthy then
      match v with
      | MetaVal.str gid =>
        match decode_global_id gid with
        | some (ty, identStr) =>
          if ty = "Vendor" then
            match strToNat? identStr with
            | some ident =>
              match vendorDb.find? (fun w => w.pk == ident) with
              | some vendor =>
                let vset := if vendor ∈ vendor_set then vendor_set else vendor_set ++ [vendor]
                Except.ok (finish_vendors [vendor.brand_name] vset, vset)
              | none => Except.error BuildErr.vendorNotFound
            | none => Except.error BuildErr.graphQLError
          else Except.error BuildErr.graphQLError
        | none => Except.error BuildErr.graphQLError
      | MetaVal.int _ => Except.error BuildErr.graphQLError
    else Except.ok (finish_vendors [] [], [])
  | none => Except.ok (finish_vendors [] [], [])

/-- The thumbnail entry of the final document: a truthy thumbnail object is
run through `map_product_media_or_thumbnail` and indexed at 0 (raising
`IndexError` when its url is falsy); an absent thumbnail gives `""`. -/
def resolve_thumbnail (thumbnail : Option (Option String)) : Except BuildErr String :=
  match thumbnail with
  | none => Except.ok ""
  | some u =>
    match map_product_media_or_thumbnail [u] with
    | t :: _ => Except.ok t
    | [] => Except.error BuildErr.indexError

/-- The localized (name, raw description) pair selected by `get_product_data`:
the product's own fields at locale `"EN"`, the translation row's fields when
one matches, and empty values otherwise. -/
def name_desc (product : ProductRec) (language_code : String) :
    String × Option DescriptionDoc :=
  if language_code = "EN" then
    (product.name, product.description)
  else
    match product.translations.find? (fun t => t.language_code == lowerStr language_code) with
    | some t => (t.name, t.description)
    | none => ("", none)

/-- The `product_dict.update({...})` record of `get_product_data`, assembled
once the errors/channels gate has been passed. -/
def assemble_document (product : ProductRec) (qr : QueryResult) (language_code : String)
    (description : Option String) (channels : List ChannelBlock) (vendors : List String)
    (thumb : String) (categories : List (String × String)) : Document :=
  { skus := product.variant_skus
    objectID := qr.node.slug
    vendors := vendors
    channels := channels
    name := (name_desc product language_code).1
    attributes := map_product_attributes qr.node.attributes
      (qr.node.variants.map VariantNode.attributes) language_code
    celebrities := product.celebrity_set
    description := description
    gender := getMeta product.metadata "gender"
    images := map_product_media_or_thumbnail (qr.node.media.take 2)
    popularity := getMetaD product.metadata "popularity" (MetaVal.int 0)
    thumbnail := thumb
    collections := map_product_collections product.collections language_code
    categories := categories
    tagsCelebrities := product.celebrity_set
    tagsGender := getMeta product.metadata "gender" }

/-- `get_product_data`: build the per-locale document for a product, or
`none` when the fetch reported errors or no channel block was produced.  The
side effect on the vendor association set is returned alongside.  Effects and
exceptions occur in source order: description extraction, channel loop,
vendor resolution, then (only behind the errors/channels gate) thumbnail and
category flattening. -/
def get_product_data (vendorDb : List Vendor) (product : ProductRec)
    (qr : QueryResult) (language_code : String) :
    Except BuildErr (Option Document × List Vendor) :=
  match map_product_description (name_desc product language_code).2 with
  | Except.error e => Except.error e
  | Except.ok description =>
    match build_channels (price_local qr.node.variants) qr.node.channelListings with
    | Except.error e => Except.error e
    | Except.ok channels =>
      match resolve_vendors vendorDb product.metadata product.vendor_set with
      | Except.error e => Except.error e
      | Except.ok vres =>
        if qr.errors = false ∧ channels ≠ [] then
          match resolve_thumbnail qr.node.thumbnail with
          | Except.error e => Except.error e
          | Except.ok thumb =>
            match get_hierarchical_categories_from (HierInput.product product)
                (lowerStr language_code) with
            | Except.error e => Except.error e
            | Except.ok categories =>
              Except.ok (some (assemble_document product qr language_code description
                channels vres.1 thumb categories), vres.2)
        else Except.ok (none, vres.2)

/-- A remote index operation issued by a plugin hook: `save` models
`save_object` (autoGenerateObjectIDIfNotExist=false), `update` models
`partial_update_object` (createIfNotExists=true), `delete` models
`delete_object`. -/
inductive IndexOp (Doc : Type)
  | save (locale : String) (doc : Doc)
  | update (locale : String) (doc : Doc)
  | delete (locale : String) (objectID : String)
deriving DecidableEq, Repr

/-- Per-locale fan-out of the save path: one `save_object` for each locale
whose document build yields a document. -/
def fanoutSave {Doc : Type} (locales : List String) (build : Nat → String → Option Doc)
    (pk : Nat) : List (IndexOp Doc) :=
  locales.filterMap fun locale => (build pk locale).map (fun d => IndexOp.save locale d)

/-- Per-locale fan-out of the merge-update path. -/
def fanoutUpdate {Doc : Type} (locales : List String) (build : Nat → String → Option Doc)
    (pk : Nat) : List (IndexOp Doc) :=
  locales.filterMap fun locale => (build pk locale).map (fun d => IndexOp.update locale d)

/-- `AlgoliaPlugin.product_created` (guarded by `require_active_plugin`). -/
def product_created {Doc : Type} (active : Bool) (locales : List String)
    (build : Nat → String → Option Doc) (pk : Nat) : List (IndexOp Doc) :=
  if active then fanoutSave locales build pk else []

/-- `AlgoliaPlugin.product_updated` (guarded by `require_active_plugin`). -/
def product_updated {Doc : Type} (active : Bool) (locales : List String)
    (build : Nat → String → Option Doc) (pk : Nat) : List (IndexOp Doc) :=
  if active then fanoutUpdate locales build pk else []

/-- `AlgoliaPlugin.product_deleted` (guarded by `require_active_plugin`). -/
def product_deleted (Doc : Type) (active : Bool) (locales : List String)
    (slug : String) : List (IndexOp Doc) :=
  if active then locales.map (fun locale => IndexOp.delete locale slug) else []

/-- The dynamic kind of a translation object passed to the translation hooks
(`isinstance(translation, ProductTranslation)` dispatch); a product
translation carries its owning product's pk. -/
inductive TranslationKind
  | productTranslation (productPk : Nat)
  | other
deriving DecidableEq, Repr

/-- `AlgoliaPlugin.translation_created`: active-guarded, and a no-op unless
the translation is a product translation. -/
def translation_created {Doc : Type} (active : Bool) (locales : List String)
    (build : Nat → String → Option Doc) (t : TranslationKind) : List (IndexOp Doc) :=
  if active then
    match t with
    | TranslationKind.productTranslation pk => fanoutSave locales build pk
    | TranslationKind.other => []
  else []

/-- `AlgoliaPlugin.translation_updated`: active-guarded, and a no-op unless
the translation is a product translation. -/
def translation_updated {Doc : Type} (active : Bool) (locales : List String)
    (build : Nat → String → Option Doc) (t : TranslationKind) : List (IndexOp Doc) :=
  if active then
    match t with
    | TranslationKind.productTranslation pk => fanoutUpdate locales build pk
    | TranslationKind.other => []
  else []

/-- `AlgoliaPlugin.product_variant_created`, keyed by the owning product. -/
def product_variant_created {Doc : Type} (active : Bool) (locales : List String)
    (build : Nat → String → Option Doc) (productPk : Nat) : List (IndexOp Doc) :=
  if active then fanoutSave locales build productPk else []

/-- `AlgoliaPlugin.product_variant_updated`, keyed by the owning product. -/
def product_variant_updated {Doc : Type} (active : Bool) (locales : List String)
    (build : Nat → String → Option Doc) (productPk : Nat) : List (IndexOp Doc) :=
  if active then fanoutUpdate locales build productPk else []

/-- One order line as seen by `order_created`:
`getattr(line.variant, "product", None)` and the ordered quantity. -/
structure OrderLine where
  productPk : Option Nat
  quantity : Int
deriving DecidableEq, Repr

/-- The per-product metadata store mutated by `order_created`. -/
abbrev MetaStore := List (Nat × List (String × MetaVal))

/-- Read a product's metadata from the store. -/
def storeGet (s : MetaStore) (pk : Nat) : List (String × MetaVal) :=
  ((s.find? (fun e => e.1 == pk)).map Prod.snd).getD []

/-- Persist a product's metadata into the store. -/
def storeSet (s : MetaStore) (pk : Nat) (md : List (String × MetaVal)) : MetaStore :=
  if s.any (fun e => e.1 == pk) then
    s.map (fun e => if e.1 == pk then (pk, md) else e)
  else s ++ [(pk, md)]

/-- The loop body of `AlgoliaPlugin.order_created` for one order line: read
the metadata value under the key `""` (default 0), add the line quantity,
persist the sum under the key `"popularity"`, then issue one save per locale
whose build (against the mutated store) yields a document.  Lines without a
product are skipped. -/
def order_created_line {Doc : Type} (locales : List String)
    (build : MetaStore → Nat → String → Option Doc)
    (st : MetaStore × List (IndexOp Doc)) (line : OrderLine) :
    MetaStore × List (IndexOp Doc) :=
  match line.productPk with
  | none => st
  | some pk =>
    let md := storeGet st.1 pk
    let popularity := (getMetaD md "" (MetaVal.int 0)).asInt + line.quantity
    let md2 := setMeta md "popularity" (MetaVal.int popularity)
    let s2 := storeSet st.1 pk md2
    let ops := locales.filterMap fun locale =>
      (build s2 pk locale).map (fun d => IndexOp.save locale d)
    (s2, st.2 ++ ops)

/-- `AlgoliaPlugin.order_created`: the only hook without the
`require_active_plugin` guard; folds the line body over the order's lines. -/
def order_created {Doc : Type} (locales : List String)
    (build : MetaStore → Nat → String → Option Doc)
    (store : MetaStore) (lines : List OrderLine) : MetaStore × List (IndexOp Doc) :=
  lines.foldl (order_created_line locales build) (store, [])

/-- Does a channel listing survive the channel loop as a block: truthy
pricing, published, and available for purchase. -/
def eligibleListing (ch : ChannelListingNode) : Bool :=
  ch.pricing.isSome && ch.isPublished && ch.isAvailableForPurchase

/-- The document of a successful, non-skipped build. -/
def builtDoc (r : Except BuildErr (Option Document × List Vendor)) : Option Document :=
  match r with
  | Except.ok (some d, _) => some d
  | _ => none

/-- A sample eligible channel listing without a discount. -/
def chEligible : ChannelListingNode :=
  { pricing := some
      { priceRange := some { start := some { gross := { amount := 29.99, currency := "USD" } } }
        discount := none }
    discountedPrice := none
    channel := "default-channel"
    isPublished := true
    publicationDate := some "2024-01-01"
    isAvailableForPurchase := true }

/-- A sample variant with a priced channel listing and no attributes. -/
def variantW : VariantNode :=
  { channelListings := [{ price := some 29.99 }], attributes := [] }

/-- A sample fetched product node with one eligible channel. -/
def sampleNode : ProductNode :=
  { name := "Shirt", slug := "shirt", description := none, media := [], thumbnail := none
    channelListings := [chEligible], variants := [variantW], attributes := [] }

/-- A sample root-only category chain. -/
def catRoot : CategoryRec := { ancestorsWithSelf := [{ name := "Root", translations := [] }] }

/-- Sample vendors. -/
def vendX : Vendor := { pk := 1, brand_name := "BrandX" }

/-- Sample vendors. -/
def vendY : Vendor := { pk := 2, brand_name := "BrandY" }

/-- A product holding a metadata vendor reference to `vendX` while `vendY`
is already in its association set. -/
def productC2 : ProductRec :=
  { pk := 1, name := "Shirt", description := none, category := some catRoot
    variant_skus := ["SKU1"], collections := [], vendor_set := [vendY]
    celebrity_set := [], metadata := [("vendor", MetaVal.str "Vendor:1")], translations := [] }

/-- A product with no vendor metadata and an empty association set. -/
def productPlain : ProductRec :=
  { pk := 1, name := "Shirt", description := none, category := some catRoot
    variant_skus := ["SKU1"], collections := [], vendor_set := []
    celebrity_set := [], metadata := [], translations := [] }

/-- An error-free fetch of `sampleNode`. -/
def qrOk : QueryResult := { errors := false, node := sampleNode }

/-- A fetch of `sampleNode` that reported errors. -/
def qrErr : QueryResult := { errors := true, node := sampleNode }

/-- A published and purchasable listing whose `pricing` is null. -/
def chNoPricing : ChannelListingNode :=
  { pricing := none, discountedPrice := none, channel := "default-channel"
    isPublished := true, publicationDate := none, isAvailableForPurchase := true }

/-- An error-free fetch whose only listing is published and purchasable but
has null pricing. -/
def qrC4 : QueryResult :=
  { errors := false, node := { sampleNode with channelListings := [chNoPricing] } }

/-- An arbitrary concrete document, used to instantiate universally
quantified conclusions. -/
def docDummy : Document :=
  { skus := [], objectID := "", vendors := [], channels := [], name := ""
    attributes := none, celebrities := [], description := none, gender := none
    images := [], popularity := MetaVal.int 0, thumbnail := "", collections := []
    categories := [], tagsCelebrities := [], tagsGender := none }

/-- C1: the order-placement hook does not add the line quantity to the
current popularity.  On a product whose metadata holds popularity 5, a line
of quantity 3 makes the code store popularity 3, not 8: the read uses the
metadata key `""` (always absent, default 0) while the write uses
`"popularity"`, so the counter never accumulates.  One save per locale is
still issued. -/
theorem order_created_overwrites_popularity :
    order_created ["en", "ar"] (fun _ _ _ => some ())
      [(1, [("popularity", MetaVal.int 5)])]
      [{ productPk := some 1, quantity := 3 }] =
      ([(1, [("popularity", MetaVal.int 3)])],
       [IndexOp.save "en" (), IndexOp.save "ar" ()]) := by rfl

/-- C7: hierarchy flattening maps a label list to `lvl0..lvlN` where `lvlk`
is the `" > "`-join of labels `0..k` (so `lvl0` is the root label alone);
`["A","B","C"]` yields exactly the three expected levels and the empty list
yields the empty mapping. -/
theorem hierarchical_categories_levels :
    (∀ ls : List String, get_hierarchical_categories ls =
      (List.range ls.length).map fun i =>
        ("lvl" ++ toString i, String.intercalate " > " (ls.take (i + 1)))) ∧
    get_hierarchical_categories ["A", "B", "C"] =
      [("lvl0", "A"), ("lvl1", "A > B"), ("lvl2", "A > B > C")] ∧
    get_hierarchical_categories ([] : List String) = [] := by
  refine ⟨?_, by decide, rfl⟩
  intro ls
  unfold get_hierarchical_categories
  apply List.map_congr_left
  intro i hi
  rcases Nat.eq_zero_or_pos i with h0 | hpos
  · subst h0
    cases ls with
    | nil => simp at hi
    | cons a t => simp [String.intercalate, String.intercalate.go]
  · simp [Nat.pos_iff_ne_zero.mp hpos]

/-- C8: the translation hooks fan the save/merge-update path out over all
locales for the owning product exactly when the changed translation is a
product translation; any other translation kind yields no build and no
remote call, active or not.  Membership in the update hook's output is
exactly one merge-update per locale whose build yields a document. -/
theorem translation_hooks_product_kind_only (Doc : Type) (active : Bool)
    (locales : List String) (build : Nat → String → Option Doc) (pk : Nat) :
    translation_created active locales build TranslationKind.other = [] ∧
    translation_updated active locales build TranslationKind.other = [] ∧
    translation_created true locales build (TranslationKind.productTranslation pk) =
      fanoutSave locales build pk ∧
    translation_updated true locales build (TranslationKind.productTranslation pk) =
      fanoutUpdate locales build pk ∧
    (∀ locale d, IndexOp.update locale d ∈
        translation_updated true locales build (TranslationKind.productTranslation pk) ↔
      (locale ∈ locales ∧ build pk locale = some d)) := by
  refine ⟨?_, ?_, rfl, rfl, ?_⟩
  · cases active <;> rfl
  · cases active <;> rfl
  · intro locale d
    simp only [translation_updated, if_true, fanoutUpdate, List.mem_filterMap,
      Option.map_eq_some']
    constructor
    · rintro ⟨x, hx, a, ha, heq⟩
      cases heq
      exact ⟨hx, ha⟩
    · rintro ⟨hl, hb⟩
      exact ⟨locale, hl, d, hb, rfl⟩

/-- C8 witness: a concrete instance of the classifying theorem. -/
theorem translation_hooks_product_kind_only_witness :
    translation_created true ["en"] (fun _ _ => some ()) TranslationKind.other = [] ∧
    translation_updated true ["en"] (fun _ _ => some ())
      (TranslationKind.productTranslation 7) = [IndexOp.update "en" ()] := by
  refine ⟨(translation_hooks_product_kind_only Unit true ["en"] (fun _ _ => some ()) 7).1, ?_⟩
  have h := (translation_hooks_product_kind_only Unit true ["en"] (fun _ _ => some ()) 7).2.2.2.1
  rw [h]; rfl

/-- C10: every guarded lifecycle hook is a no-op when the plugin is
inactive, while `order_created` takes no activity input at all: on any store
it persists the recomputed popularity metadata and issues its per-locale
save fan-out unconditionally. -/
theorem order_created_not_guarded (Doc : Type) (locales : List String)
    (build : Nat → String → Option Doc)
    (bstore : MetaStore → Nat → String → Option Doc) (store : MetaStore)
    (pk : Nat) (q : Int) (slug : String) (t : TranslationKind) :
    product_created false locales build pk = [] ∧
    product_updated false locales build pk = [] ∧
    product_deleted Doc false locales slug = [] ∧
    translation_created false locales build t = [] ∧
    translation_updated false locales build t = [] ∧
    product_variant_created false locales build pk = [] ∧
    product_variant_updated false locales build pk = [] ∧
    order_created locales bstore store [{ productPk := some pk, quantity := q }] =
      (storeSet store pk
        (setMeta (storeGet store pk) "popularity"
          (MetaVal.int ((getMetaD (storeGet store pk) "" (MetaVal.int 0)).asInt + q))),
       locales.filterMap fun locale =>
         (bstore
           (storeSet store pk
             (setMeta (storeGet store pk) "popularity"
               (MetaVal.int ((getMetaD (storeGet store pk) "" (MetaVal.int 0)).asInt + q))))
           pk locale).map (fun d => IndexOp.save locale d)) := by
  exact ⟨rfl, rfl, rfl, rfl, rfl, rfl, rfl, rfl⟩

/-- Sample attribute assignment without a locale translation. -/
def attrColor : AttributeEntry :=
  { attr := { name := "Color", translation := none }
    values := [{ name := "Red", translation := none },
               { name := "Blue", translation := none }] }

/-- Sample attribute assignment with a translated name and one translated
value. -/
def attrSize : AttributeEntry :=
  { attr := { name := "Size", translation := some "Groesse" }
    values := [{ name := "Big", translation := some "Gross" },
               { name := "Small", translation := none }] }

/-- C5 counterexample: at a non-base locale an attribute without a
translation is not omitted from the localized list; the code appends an
empty mapping for it, so the list still holds an entry at its position. -/
theorem untranslated_attribute_not_omitted :
    map_product_attributes [attrColor] [] "AR" =
      some [([] : List (String × List String))] ∧
    some [([] : List (String × List String))] ≠
      some ([] : List (List (String × List String))) := by
  exact ⟨rfl, by decide⟩

/-- C5 amended: at the base locale `"EN"` the projection uses raw attribute
and value names; at a non-base locale the localized list keeps one entry per
attribute, where an attribute with a translation maps the translated name to
its translated values only, and an attribute without one contributes an
empty mapping (it is not removed from the list). -/
theorem attribute_localization_amended (pAttrs : List AttributeEntry)
    (vAttrs : List (List AttributeEntry)) (lc : String) (hlc : lc ≠ "EN")
    (hne : pAttrs ++ vAttrs.flatten ≠ []) :
    map_product_attributes pAttrs vAttrs "EN" =
      some ((pAttrs ++ vAttrs.flatten).map fun a =>
        [(a.attr.name, a.values.map AttrValue.name)]) ∧
    ∀ res, map_product_attributes pAttrs vAttrs lc = some res →
      res.length = (pAttrs ++ vAttrs.flatten).length ∧
      ∀ (i : Nat) (a : AttributeEntry), (pAttrs ++ vAttrs.flatten)[i]? = some a →
        res[i]? = some (match a.attr.translation with
          | none => ([] : List (String × List String))
          | some t => [(t, a.values.filterMap AttrValue.translation)]) := by
  have hne' : (pAttrs ++ vAttrs.flatten).isEmpty = false := by
    simpa [List.isEmpty_iff] using hne
  constructor
  · simp [map_product_attributes, hne']
  · intro res hres
    simp only [map_product_attributes, hne', Bool.false_eq_true, if_false, hlc,
      Option.some.injEq] at hres
    subst hres
    constructor
    · simp only [List.length_map]
    · intro i a hi
      rw [List.getElem?_map, hi]
      cases htr : a.attr.translation <;> simp [htr]

/-- C5 amended witness: the theorem instantiated at two concrete attributes
at locale `"AR"`. -/
theorem attribute_localization_amended_witness :
    ("AR" ≠ "EN") ∧
    ([attrColor, attrSize] ++ ([] : List (List AttributeEntry)).flatten ≠ []) ∧
    map_product_attributes [attrColor, attrSize] [] "EN" =
      some [[("Color", ["Red", "Blue"])], [("Size", ["Big", "Small"])]] ∧
    ([([] : List (String × List String)), [("Groesse", ["Gross"])]]).length =
      ([attrColor, attrSize] ++ ([] : List (List AttributeEntry)).flatten).length := by
  have h := attribute_localization_amended [attrColor, attrSize] [] "AR"
    (by decide) (by decide)
  refine ⟨by decide, by decide, ?_, (h.2 [[], [("Groesse", ["Gross"])]] rfl).1⟩
  rw [h.1]
  rfl

/-- A sample eligible channel listing carrying a discount and a discounted
price. -/
def chDiscounted : ChannelListingNode :=
  { pricing := some
      { priceRange := some { start := some { gross := { amount := 29.99, currency := "USD" } } }
        discount := some { currency := some "USD" } }
    discountedPrice := some 19.99
    channel := "default-channel"
    isPublished := true
    publicationDate := none
    isAvailableForPurchase := true }

/-- C6: for an eligible channel listing whose gross price chain extracts
without raising (non-null `priceRange` and `start` — otherwise the source
raises `AttributeError` before the publication checks and no block exists),
the emitted block's discounted price is the channel's discounted-price
amount exactly when both a discounted price and a discount are present on
that channel's pricing, and the variant base price otherwise. -/
theorem discounted_price_rule (price : Rat) (ch : ChannelListingNode) (p : PricingNode)
    (g : GrossNode) (hp : ch.pricing = some p)
    (hg : gross_of_pricing p = Except.ok g) (hpub : ch.isPublished = true)
    (hav : ch.isAvailableForPurchase = true) :
    build_channel_block (some price) ch =
      Except.ok (some
        { name := ch.channel
          publication_date := ch.publicationDate
          price := price
          currency := g.currency
          discounted_price :=
            if ch.discountedPrice.isSome && p.discount.isSome then
              ch.discountedPrice.getD 0
            else price }) := by
  simp only [build_channel_block, hp, hg, hpub, hav]
  rfl

/-- C6 witness: with a discount present, discounted price 19.99 and base
price 29.99 the block's discounted price is 19.99; the same channel without
a discount falls back to 29.99. -/
theorem discounted_price_rule_witness :
    build_channel_block (some (29.99 : Rat)) chDiscounted =
      Except.ok (some
        { name := "default-channel", publication_date := none, price := 29.99
          currency := "USD", discounted_price := 19.99 }) ∧
    build_channel_block (some (29.99 : Rat)) chEligible =
      Except.ok (some
        { name := "default-channel", publication_date := some "2024-01-01"
          price := 29.99, currency := "USD", discounted_price := 29.99 }) := by
  constructor
  · have h := discounted_price_rule 29.99 chDiscounted
      { priceRange := some { start := some { gross := { amount := 29.99, currency := "USD" } } }
        discount := some { currency := some "USD" } }
      { amount := 29.99, currency := "USD" } rfl rfl rfl rfl
    rw [h]
    rfl
  · have h := discounted_price_rule 29.99 chEligible
      { priceRange := some { start := some { gross := { amount := 29.99, currency := "USD" } } }
        discount := none }
      { amount := 29.99, currency := "USD" } rfl rfl rfl rfl
    rw [h]
    rfl

/-- Helper: a channel listing that yields a block is eligible. -/
theorem eligible_of_block (price : Option Rat) (ch : ChannelListingNode)
    (blk : ChannelBlock) (h : build_channel_block price ch = Except.ok (some blk)) :
    eligibleListing ch = true := by
  unfold build_channel_block at h
  split at h
  · simp at h
  · rename_i p hp
    split at h
    · cases h
    · rename_i g hg
      split at h
      · rename_i hc
        rw [Bool.and_eq_true] at hc
        unfold eligibleListing
        rw [hp]
        simp [hc.1, hc.2]
      · simp at h

/-- Helper: a channel listing skipped by the loop is not eligible. -/
theorem not_eligible_of_block_none (price : Option Rat) (ch : ChannelListingNode)
    (h : build_channel_block price ch = Except.ok none) :
    eligibleListing ch = false := by
  cases he : eligibleListing ch
  · rfl
  · exfalso
    unfold build_channel_block at h
    unfold eligibleListing at he
    split at h
    · rename_i hp
      rw [hp] at he
      simp at he
    · rename_i p hp
      split at h
      · cases h
      · rename_i g hg
        split at h
        · split at h
          · cases h
          · simp at h
        · rename_i hc
          rw [hp] at he
          simp only [Option.isSome_some, Bool.true_and, Bool.and_eq_true] at he
          exact hc (by simp [he.1, he.2])

/-- Helper: a successful channel loop returns a nonempty block list exactly
when some listing has truthy pricing and is published and purchasable. -/
theorem build_channels_ne_nil_iff (price : Option Rat) (l : List ChannelListingNode)
    (bs : List ChannelBlock) (h : build_channels price l = Except.ok bs) :
    (bs ≠ [] ↔ l.any eligibleListing = true) := by
  induction l generalizing bs with
  | nil =>
    unfold build_channels at h
    cases h
    simp
  | cons ch rest ih =>
    unfold build_channels at h
    split at h
    · cases h
    · rename_i b hb
      split at h
      · cases h
      · rename_i bs2 hr
        split at h
        · rename_i blk
          cases h
          have he := eligible_of_block price ch blk hb
          simp [List.any_cons, he]
        · cases h
          have he := not_eligible_of_block_none price ch hb
          rw [List.any_cons, he]
          simpa using ih _ hr

/-- Helper: what a document-producing run of the builder entails. -/
theorem get_product_data_ok_some (db : List Vendor) (p : ProductRec) (qr : QueryResult)
    (lc : String) (d : Document) (vs : List Vendor)
    (h : get_product_data db p qr lc = Except.ok (some d, vs)) :
    qr.errors = false ∧
    (∃ channels, build_channels (price_local qr.node.variants) qr.node.channelListings =
      Except.ok channels ∧ channels ≠ [] ∧ d.channels = channels) ∧
    resolve_vendors db p.metadata p.vendor_set = Except.ok (d.vendors, vs) ∧
    ∃ categories, get_hierarchical_categories_from (HierInput.product p) (lowerStr lc) =
      Except.ok categories ∧ d.categories = categories := by
  unfold get_product_data at h
  split at h
  · cases h
  · rename_i description hd
    split at h
    · cases h
    · rename_i channels hch
      split at h
      · cases h
      · rename_i vres hv
        split at h
        · rename_i hg
          split at h
          · cases h
          · rename_i thumb ht
            split at h
            · cases h
            · rename_i categories hcat
              simp only [Except.ok.injEq, Prod.mk.injEq, Option.some.injEq] at h
              obtain ⟨h1, h2⟩ := h
              subst h1
              subst h2
              exact ⟨hg.1, ⟨channels, hch, hg.2, rfl⟩, hv, ⟨categories, hcat, rfl⟩⟩
        · simp at h

/-- Helper: what a successful but skipped (documentless) run entails. -/
theorem get_product_data_ok_none (db : List Vendor) (p : ProductRec) (qr : QueryResult)
    (lc : String) (vs : List Vendor)
    (h : get_product_data db p qr lc = Except.ok (none, vs)) :
    qr.errors = true ∨
    ∃ channels, build_channels (price_local qr.node.variants) qr.node.channelListings =
      Except.ok channels ∧ channels = [] := by
  unfold get_product_data at h
  split at h
  · cases h
  · rename_i description hd
    split at h
    · cases h
    · rename_i channels hch
      split at h
      · cases h
      · rename_i vres hv
        split at h
        · rename_i hg
          split at h
          · cases h
          · rename_i thumb ht
            split at h
            · cases h
            · rename_i categories hcat
              simp at h
        · rename_i hg
          rw [not_and_or] at hg
          rcases hg with hg | hg
          · left
            cases herr : qr.errors with
            | false => exact absurd herr hg
            | true => rfl
          · right
            exact ⟨channels, hch, not_ne_iff.mp hg⟩

/-- Helper: `finish_vendors` only appends to its accumulator. -/
theorem finish_vendors_eq_append (l : List Vendor) : ∀ acc : List String,
    ∃ ext, finish_vendors acc l = acc ++ ext := by
  induction l with
  | nil => exact fun acc => ⟨[], by simp [finish_vendors]⟩
  | cons v t ih =>
    intro acc
    show ∃ ext,
      finish_vendors (if v.brand_name ∈ acc then acc else acc ++ [v.brand_name]) t =
        acc ++ ext
    by_cases hv : v.brand_name ∈ acc
    · rw [if_pos hv]
      exact ih acc
    · rw [if_neg hv]
      obtain ⟨ext, hext⟩ := ih (acc ++ [v.brand_name])
      exact ⟨v.brand_name :: ext, by rw [hext]; simp⟩

/-- Helper: starting from a one-element accumulator, that element stays in
front. -/
theorem finish_vendors_head (b : String) (l : List Vendor) :
    (finish_vendors [b] l).head? = some b := by
  obtain ⟨ext, hext⟩ := finish_vendors_eq_append l [b]
  rw [hext]
  rfl

/-- Helper: `finish_vendors` keeps everything already accumulated. -/
theorem mem_finish_vendors_of_mem_acc (a : String) (acc : List String) (l : List Vendor)
    (ha : a ∈ acc) : a ∈ finish_vendors acc l := by
  obtain ⟨ext, hext⟩ := finish_vendors_eq_append l acc
  rw [hext]
  exact List.mem_append_left _ ha

/-- Helper: every listed vendor's brand name ends up collected. -/
theorem mem_finish_vendors_of_mem (l : List Vendor) : ∀ (acc : List String) (v : Vendor),
    v ∈ l → v.brand_name ∈ finish_vendors acc l := by
  induction l with
  | nil => intro acc v hv; cases hv
  | cons w t ih =>
    intro acc v hv
    show v.brand_name ∈
      finish_vendors (if w.brand_name ∈ acc then acc else acc ++ [w.brand_name]) t
    rcases List.mem_cons.mp hv with heq | ht
    · subst heq
      apply mem_finish_vendors_of_mem_acc
      by_cases hw : v.brand_name ∈ acc
      · rw [if_pos hw]; exact hw
      · rw [if_neg hw]; exact List.mem_append_right _ (List.mem_singleton.mpr rfl)
    · exact ih _ v ht

/-- The channel block built for `chEligible` with base price 29.99. -/
def blockC2 : ChannelBlock :=
  { name := "default-channel", publication_date := some "2024-01-01"
    price := 29.99, currency := "USD", discounted_price := 29.99 }

/-- The document built for `productC2` from `qrOk` at locale `"EN"`. -/
def docC2 : Document :=
  { skus := ["SKU1"], objectID := "shirt", vendors := ["BrandX", "BrandY"]
    channels := [blockC2], name := "Shirt", attributes := none, celebrities := []
    description := none, gender := none, images := [], popularity := MetaVal.int 0
    thumbnail := "", collections := [], categories := [("lvl0", "Root")]
    tagsCelebrities := [], tagsGender := none }

/-- `productPlain` without a category. -/
def productNoCat : ProductRec := { productPlain with category := none }

/-- C3 counterexample: a fetch that reports errors while an eligible channel
exists still yields no document — the build returns nothing (after having
performed the vendor mutations), contradicting the claim that the document
is still returned. -/
theorem errors_not_nonfatal :
    qrErr.errors = true ∧
    qrErr.node.channelListings.any eligibleListing = true ∧
    get_product_data [vendX, vendY] productC2 qrErr "EN" =
      Except.ok (none, [vendY, vendX]) := ⟨rfl, rfl, rfl⟩

/-- C3 amended: fetch errors are fatal for the document: whenever the query
result reports errors the builder never returns a document, no matter how
many eligible channel blocks exist. -/
theorem errors_suppress_document (db : List Vendor) (p : ProductRec) (qr : QueryResult)
    (lc : String) (h : qr.errors = true) :
    ∀ d vs, get_product_data db p qr lc ≠ Except.ok (some d, vs) := by
  intro d vs hc
  have he := (get_product_data_ok_some db p qr lc d vs hc).1
  rw [h] at he
  cases he

/-- C3 witness: the amended theorem applied at a concrete erroring fetch. -/
theorem errors_suppress_document_witness :
    qrErr.errors = true ∧
    get_product_data [vendX, vendY] productC2 qrErr "EN" ≠
      Except.ok (some docDummy, [vendY, vendX]) :=
  ⟨rfl, errors_suppress_document [vendX, vendY] productC2 qrErr "EN" rfl
    docDummy [vendY, vendX]⟩

/-- C4 counterexample: a published and purchasable listing whose `pricing`
is null is skipped by the channel loop, so the build returns nothing even
though an eligible (published and purchasable) listing exists and the fetch
reported no errors. -/
theorem published_purchasable_listing_without_pricing_skipped :
    (qrC4.node.channelListings.any fun ch =>
      ch.isPublished && ch.isAvailableForPurchase) = true ∧
    qrC4.errors = false ∧
    get_product_data [] productPlain qrC4 "EN" = Except.ok (none, []) := ⟨rfl, rfl, rfl⟩

/-- C4 amended: whenever the build returns a document, the fetch reported no
errors and some listing has truthy pricing and is published and purchasable;
conversely, a run that terminates without an exception and satisfies those
two conditions returns a document. -/
theorem document_iff_eligible_channels (db : List Vendor) (p : ProductRec)
    (qr : QueryResult) (lc : String) :
    (∀ d vs, get_product_data db p qr lc = Except.ok (some d, vs) →
      qr.errors = false ∧ qr.node.channelListings.any eligibleListing = true) ∧
    (∀ o vs, get_product_data db p qr lc = Except.ok (o, vs) →
      qr.errors = false → qr.node.channelListings.any eligibleListing = true →
      o.isSome = true) := by
  constructor
  · intro d vs h
    obtain ⟨he, ⟨channels, hch, hne, -⟩, -, -⟩ := get_product_data_ok_some db p qr lc d vs h
    exact ⟨he, (build_channels_ne_nil_iff _ _ _ hch).mp hne⟩
  · intro o vs h he hany
    cases o with
    | some d => rfl
    | none =>
      rcases get_product_data_ok_none db p qr lc vs h with herr | ⟨channels, hch, hnil⟩
      · rw [he] at herr; cases herr
      · exact absurd hnil ((build_channels_ne_nil_iff _ _ _ hch).mpr hany)

/-- C4 witness: both directions instantiated at a concrete product with one
eligible channel and an error-free fetch. -/
theorem document_iff_eligible_channels_witness :
    get_product_data [vendX, vendY] productC2 qrOk "EN" =
      Except.ok (some docC2, [vendY, vendX]) ∧
    qrOk.errors = false ∧
    qrOk.node.channelListings.any eligibleListing = true ∧
    (some docC2).isSome = true := by
  have h := document_iff_eligible_channels [vendX, vendY] productC2 qrOk "EN"
  exact ⟨rfl, (h.1 docC2 [vendY, vendX] rfl).1, (h.1 docC2 [vendY, vendX] rfl).2,
    h.2 (some docC2) [vendY, vendX] rfl rfl rfl⟩

/-- C9: a product without a category makes `get_categories_list_from_product`
return `None` (not an empty list); the hierarchy flattener then iterates over
that `None` and raises `TypeError`, so the build never produces a document
for such a product. -/
theorem missing_category_breaks_build (db : List Vendor) (p : ProductRec)
    (qr : QueryResult) (lc lc2 : String) (h : p.category = none) :
    get_categories_list_from_product p lc2 = none ∧
    get_hierarchical_categories_from (HierInput.product p) lc2 =
      Except.error BuildErr.typeError ∧
    ∀ d vs, get_product_data db p qr lc ≠ Except.ok (some d, vs) := by
  have h1 : ∀ lx, get_categories_list_from_product p lx = none := by
    intro lx
    unfold get_categories_list_from_product
    rw [h]
  have h2 : ∀ lx, get_hierarchical_categories_from (HierInput.product p) lx =
      Except.error BuildErr.typeError := by
    intro lx
    unfold get_hierarchical_categories_from
    show (match get_categories_list_from_product p lx with
      | some ls => Except.ok (get_hierarchical_categories ls)
      | none => Except.error BuildErr.typeError) = Except.error BuildErr.typeError
    rw [h1 lx]
  refine ⟨h1 lc2, h2 lc2, ?_⟩
  · intro d vs hc
    obtain ⟨-, -, -, categories, hcat, -⟩ := get_product_data_ok_some db p qr lc d vs hc
    rw [h2 (lowerStr lc)] at hcat
    cases hcat

/-- C9 witness: the theorem applied to a concrete category-less product,
together with the concrete evaluation showing the raised error. -/
theorem missing_category_breaks_build_witness :
    productNoCat.category = none ∧
    get_categories_list_from_product productNoCat "en" = none ∧
    get_product_data [] productNoCat qrOk "EN" ≠ Except.ok (some docDummy, []) ∧
    get_product_data [] productNoCat qrOk "EN" = Except.error BuildErr.typeError := by
  have h := missing_category_breaks_build [] productNoCat qrOk "EN" "en" rfl
  exact ⟨rfl, h.1, h.2.2 docDummy [], rfl⟩

/-- C2 counterexample: with a metadata reference to Vendor X and Vendor Y
already in the association set, the built document's vendor list is
["BrandX", "BrandY"], not ["BrandX"] alone — the association set is not
cleared in this branch (it even grows to [Y, X]). -/
theorem vendor_not_exclusive :
    builtDoc (get_product_data [vendX, vendY] productC2 qrOk "EN") = some docC2 ∧
    docC2.vendors = ["BrandX", "BrandY"] ∧
    vendY.brand_name ∈ docC2.vendors ∧
    docC2.vendors ≠ [vendX.brand_name] := by
  exact ⟨rfl, rfl, by decide, by decide⟩

/-- C2 amended: a metadata vendor reference resolving to X puts X's brand
name at the head of the document's vendor list and (re-)adds X to the
association set, but does not clear it: every previously associated vendor's
brand name also appears in the document's vendor list. -/
theorem vendor_reference_not_exclusive (db : List Vendor) (p : ProductRec)
    (qr : QueryResult) (lc : String) (X : Vendor) (gid ident : String)
    (d : Document) (vs : List Vendor)
    (hmd : getMeta p.metadata "vendor" = some (MetaVal.str gid)) (hgid : gid ≠ "")
    (hdec : decode_global_id gid = some ("Vendor", ident))
    (hident : strToNat? ident = some X.pk)
    (hfind : db.find? (fun w => w.pk == X.pk) = some X)
    (hok : get_product_data db p qr lc = Except.ok (some d, vs)) :
    d.vendors.head? = some X.brand_name ∧ X ∈ vs ∧
    ∀ Y, Y ∈ p.vendor_set → Y.brand_name ∈ d.vendors := by
  obtain ⟨-, -, hres, -⟩ := get_product_data_ok_some db p qr lc d vs hok
  unfold resolve_vendors at hres
  rw [hmd] at hres
  simp only [MetaVal.truthy, hgid, hdec, hident, hfind] at hres
  have hg : decide (gid ≠ "") = true := by simp [hgid]
  rw [hg, if_pos rfl, if_pos trivial] at hres
  simp only [Except.ok.injEq, Prod.mk.injEq] at hres
  obtain ⟨h1, h2⟩ := hres
  subst h2
  refine ⟨?_, ?_, ?_⟩
  · rw [← h1]
    exact finish_vendors_head _ _
  · by_cases hX : X ∈ p.vendor_set
    · rw [if_pos hX]
      exact hX
    · rw [if_neg hX]
      exact List.mem_append_right _ (List.mem_singleton.mpr rfl)
  · intro Y hY
    rw [← h1]
    apply mem_finish_vendors_of_mem
    by_cases hX : X ∈ p.vendor_set
    · rw [if_pos hX]
      exact hY
    · rw [if_neg hX]
      exact List.mem_append_left _ hY

/-- C2 amended witness: the theorem applied to the concrete product with a
metadata reference to X = `vendX` and Y = `vendY` already associated. -/
theorem vendor_reference_not_exclusive_witness :
    getMeta productC2.metadata "vendor" = some (MetaVal.str "Vendor:1") ∧
    decode_global_id "Vendor:1" = some ("Vendor", "1") ∧
    strToNat? "1" = some vendX.pk ∧
    get_product_data [vendX, vendY] productC2 qrOk "EN" =
      Except.ok (some docC2, [vendY, vendX]) ∧
    docC2.vendors.head? = some vendX.brand_name ∧
    vendX ∈ [vendY, vendX] ∧
    vendY.brand_name ∈ docC2.vendors := by
  have h := vendor_reference_not_exclusive [vendX, vendY] productC2 qrOk "EN" vendX
    "Vendor:1" "1" docC2 [vendY, vendX] rfl (by decide) rfl rfl rfl rfl
  exact ⟨rfl, rfl, rfl, rfl, h.1, h.2.1, h.2.2 vendY (by decide)⟩
